import Mathlib

/-!
Verification of the daily-recipe resolution pipeline of the Lancheirinha app.

The embedded code is `fetchDailyRecipe` (src/src/App.tsx, lines 63-123),
`generateDailyRecipe` (the fence-stripping variant, src/unnamed/part_000,
lines 23-77) and the supabase-client configuration gate
(`isSupabaseConfigured`, src/unnamed/part_000).

Modelling conventions:
- JS values that can come out of `JSON.parse` are modelled by the inductive
  `Json`; JS truthiness by `Json.truthy`; property access by `Json.getField`.
- The external `JSON.parse` / `JSON.stringify` builtins are modelled, for the
  local-storage blob, by the `Blob` type (a stored string is represented by
  its parse result, `Blob.malformed` when parsing throws), and, for the
  generation payload, by the executable `jsonParse` mini-parser below.
- `new Date()` is a clock read; the two successive reads of the source are
  two timestamps `t1`, `t2` (milliseconds since epoch).  `toISOString`'s date
  part and `toDateString` are implemented from the Gregorian calendar.
- React state setters and the stores become fields of `FetchResult`;
  the supabase table `daily_recipes` is an association list keyed by date.
-/

namespace Lancheirinha

/-- Values that `JSON.parse` can return (floats are not needed by any claim
and are omitted: every payload relevant to the pipeline is made of strings,
string arrays, and small integers). -/
inductive Json where
  | jnull
  | jbool (b : Bool)
  | jnum (n : Int)
  | jstr (s : String)
  | jarr (xs : List Json)
  | jobj (fields : List (String × Json))
deriving Repr

/-- JS truthiness of a parsed value (`if (recipe)`, `parsed && ...`). -/
def Json.truthy : Json → Bool
  | .jnull => false
  | .jbool b => b
  | .jnum n => n != 0
  | .jstr s => !s.isEmpty
  | .jarr _ => true
  | .jobj _ => true

/-- JS property access `v.key`: `none` models `undefined` (also the result of
accessing a property on a non-object primitive). -/
def Json.getField : Json → String → Option Json
  | .jobj fields, k => fields.lookup k
  | _, _ => none

def benefitsKey : String := "benefits"

/-- The local-cache validity check of App.tsx line 74:
`parsed && Array.isArray(parsed.benefits)`. -/
def hasArrayBenefits (j : Json) : Bool :=
  j.truthy &&
    (match j.getField benefitsKey with
     | some (.jarr _) => true
     | _ => false)

/-! ### Calendar dates

`new Date(ms).toISOString().split('T')[0]` renders the UTC calendar date of
`ms` as `YYYY-MM-DD`; `new Date(ms).toDateString()` renders the calendar date
in the local timezone as e.g. `Thu Jan 01 1970`.  `civilFromDays` is the
standard days-to-Gregorian conversion, valid for days ≥ 0 (all timestamps the
claims touch are after the epoch). -/

def msPerDay : Nat := 86400000

/-- Gregorian (year, month, day) of a day count since 1970-01-01 (UTC). -/
def civilFromDays (days : Nat) : Nat × Nat × Nat :=
  let z := days + 719468
  let era := z / 146097
  let doe := z % 146097
  let yoe := (doe - doe / 1460 + doe / 36524 - doe / 146096) / 365
  let doy := doe - (365 * yoe + yoe / 4 - yoe / 100)
  let mp := (5 * doy + 2) / 153
  let d := doy - (153 * mp + 2) / 5 + 1
  let m := if mp < 10 then mp + 3 else mp - 9
  let y := yoe + era * 400 + (if m ≤ 2 then 1 else 0)
  (y, m, d)

def pad2 (n : Nat) : String :=
  if n < 10 then ("0" ++ toString n) else toString n

def monthName (m : Nat) : String :=
  (["Jan", "Feb", "Mar", "Apr", "May", "Jun", "Jul", "Aug", "Sep", "Oct",
    "Nov", "Dec"]).getD (m - 1) ("")

def weekdayName (w : Nat) : String :=
  (["Sun", "Mon", "Tue", "Wed", "Thu", "Fri", "Sat"]).getD w ("")

/-- `new Date(ms).toISOString().split('T')[0]` (App.tsx line 64). -/
def toISODateKey (ms : Nat) : String :=
  let c := civilFromDays (ms / msPerDay)
  toString c.1 ++ "-" ++ pad2 c.2.1 ++ "-" ++ pad2 c.2.2

/-- `new Date(ms).toDateString()` in a timezone `tzOffsetMin` minutes east of
UTC (App.tsx line 65).  Clipped below the epoch, which no claim reaches. -/
def toDateString (tzOffsetMin : Int) (ms : Nat) : String :=
  let lm := ((ms : Int) + tzOffsetMin * 60000).toNat
  let days := lm / msPerDay
  let c := civilFromDays days
  weekdayName ((days + 4) % 7) ++ " " ++ monthName c.2.1 ++ " " ++
    pad2 c.2.2 ++ " " ++ toString c.1

/-! ### JS string operations used by the generation stage

`generateDailyRecipe` (src/unnamed/part_000, lines 57-71) does:
`text.trim()`, `text.includes('...')`, and global `text.replace(pat, '')`.
JS strings are modelled as `List Char`. -/

def backtickChar : Char := Char.ofNat 96

/-- The whitespace class trimmed by `String.prototype.trim` (restricted to
the characters that can occur in the payloads at issue). -/
def isJsWs (c : Char) : Bool :=
  c == ' ' || c == '\t' || c == '\n' || c == '\r'

/-- `text.trim()`. -/
def trimChars (l : List Char) : List Char :=
  ((l.dropWhile isJsWs).reverse.dropWhile isJsWs).reverse

/-- `text.includes(pat)`. -/
def hasSub (pat : List Char) : List Char → Bool
  | [] => pat.isEmpty
  | c :: rest => pat.isPrefixOf (c :: rest) || hasSub pat rest

/-- Left-to-right, non-overlapping removal of every occurrence of the
pattern `p :: ps`, i.e. JS `text.replace(/pat/g, '')`.  The fuel argument
makes the recursion structural; `removeAll` supplies enough fuel (each step
consumes at least one character of the text). -/
def removeAllFuel (p : Char) (ps : List Char) : Nat → List Char → List Char
  | _, [] => []
  | 0, l => l
  | fuel + 1, c :: rest =>
    if (p :: ps).isPrefixOf (c :: rest) then
      removeAllFuel p ps fuel (rest.drop ps.length)
    else
      c :: removeAllFuel p ps fuel rest

/-- JS `text.replace(pat, '')` with a global regexp of a literal pattern. -/
def removeAll (pat text : List Char) : List Char :=
  match pat with
  | [] => text
  | p :: ps => removeAllFuel p ps text.length text

def fenceChars : List Char := ("```").data

def fenceJsonChars : List Char := ("```json").data

/-! ### A mini JSON parser

Executable model of the external `JSON.parse` builtin on the payload shapes
the pipeline can meet: strings, integers, booleans, null, arrays, objects.
(Float/exponent literals, which no claim touches, are not recognised.) -/

def escChar (c : Char) : Char :=
  if c == 'n' then '\n' else if c == 't' then '\t' else if c == 'r' then '\r'
  else c

/-- Parse the remainder of a string literal, after the opening quote. -/
def parseStringLit : List Char → Option (String × List Char)
  | [] => none
  | c :: rest =>
    if c == '"' then some (("", rest))
    else if c == '\\' then
      match rest with
      | [] => none
      | e :: rest2 =>
        match parseStringLit rest2 with
        | some (s, r) => some ((String.mk (escChar e :: s.data), r))
        | none => none
    else
      match parseStringLit rest with
      | some (s, r) => some ((String.mk (c :: s.data), r))
      | none => none

def digitsToNat (l : List Char) : Nat :=
  l.foldl (fun acc c => acc * 10 + (c.toNat - 48)) 0

mutual

def parseVal : Nat → List Char → Option (Json × List Char)
  | 0, _ => none
  | fuel + 1, cs =>
    match cs.dropWhile isJsWs with
    | [] => none
    | c :: rest =>
      if c == '"' then
        match parseStringLit rest with
        | some (s, r) => some ((Json.jstr s, r))
        | none => none
      else if c == '[' then
        match rest.dropWhile isJsWs with
        | ']' :: r2 => some ((Json.jarr [], r2))
        | r =>
          match parseItems fuel r with
          | some (xs, r2) => some ((Json.jarr xs, r2))
          | none => none
      else if c == '\x7b' then
        match rest.dropWhile isJsWs with
        | '\x7d' :: r2 => some ((Json.jobj [], r2))
        | r =>
          match parseFields fuel r with
          | some (fs, r2) => some ((Json.jobj fs, r2))
          | none => none
      else if c == 't' then
        if (("rue").data).isPrefixOf rest then
          some ((Json.jbool true, rest.drop 3))
        else none
      else if c == 'f' then
        if (("alse").data).isPrefixOf rest then
          some ((Json.jbool false, rest.drop 4))
        else none
      else if c == 'n' then
        if (("ull").data).isPrefixOf rest then
          some ((Json.jnull, rest.drop 3))
        else none
      else if c == '-' then
        let ds := rest.takeWhile Char.isDigit
        if ds.isEmpty then none
        else some ((Json.jnum (-(digitsToNat ds : Int)), rest.dropWhile Char.isDigit))
      else if c.isDigit then
        let ds := (c :: rest).takeWhile Char.isDigit
        some ((Json.jnum (digitsToNat ds), (c :: rest).dropWhile Char.isDigit))
      else none

def parseItems : Nat → List Char → Option (List Json × List Char)
  | 0, _ => none
  | fuel + 1, cs =>
    match parseVal fuel cs with
    | none => none
    | some (j, r) =>
      match r.dropWhile isJsWs with
      | ',' :: r2 =>
        match parseItems fuel r2 with
        | some (xs, r3) => some ((j :: xs, r3))
        | none => none
      | ']' :: r2 => some (([j], r2))
      | _ => none

def parseFields : Nat → List Char → Option (List (String × Json) × List Char)
  | 0, _ => none
  | fuel + 1, cs =>
    match cs.dropWhile isJsWs with
    | '"' :: rest =>
      match parseStringLit rest with
      | none => none
      | some (k, r) =>
        match r.dropWhile isJsWs with
        | ':' :: r2 =>
          match parseVal fuel r2 with
          | none => none
          | some (v, r3) =>
            match r3.dropWhile isJsWs with
            | ',' :: r4 =>
              match parseFields fuel r4 with
              | some (fs, r5) => some (((k, v) :: fs, r5))
              | none => none
            | '\x7d' :: r4 => some (([(k, v)], r4))
            | _ => none
        | _ => none
    | _ => none

end

/-- Model of `JSON.parse` on a character list: `none` when parsing throws. -/
def jsonParse (cs : List Char) : Option Json :=
  match parseVal (2 * cs.length + 4) cs with
  | some (j, r) => if (r.dropWhile isJsWs).isEmpty then some j else none
  | none => none

/-! ### Generation stage

`generateDailyRecipe` (src/unnamed/part_000, lines 23-77).  The network call
to the generation service is external: its outcome is an input.  A thrown
transport error and the service-level failures are all caught by the
function's own `try/catch` and become `none`; a response object with a
truthy (non-empty) `text` goes through trim / fence-strip / `JSON.parse`. -/

/-- Outcome of `ai.models.generateContent`: a transport error (the call
throws), or a response whose `text` field is the given character list
(an empty list models a falsy `response.text`). -/
inductive GenResponse where
  | failure
  | ok (text : List Char)

/-- Lines 61-63 of src/unnamed/part_000: fence markers are stripped (and the
result re-trimmed) only when the trimmed text contains a fence. -/
def stripFencesChars (t : List Char) : List Char :=
  if hasSub fenceChars t then
    trimChars (removeAll fenceChars (removeAll fenceJsonChars t))
  else t

/-- `generateDailyRecipe` of src/unnamed/part_000 (lines 23-77), as a
function of the service outcome. -/
def generateDailyRecipe (resp : GenResponse) : Option Json :=
  match resp with
  | .failure => none
  | .ok text =>
    if text.isEmpty then none
    else jsonParse (stripFencesChars (trimChars text))

/-! ### The resolution pipeline

`fetchDailyRecipe` (src/src/App.tsx, lines 63-123). -/

/-- A string stored in the `daily_recipe` localStorage slot, seen through
`JSON.parse`: either it parses to a value or parsing throws. -/
inductive Blob where
  | malformed
  | parsed (j : Json)
deriving Repr

/-- The inputs of one resolution: the two clock reads of lines 64-65, the
device timezone, the two localStorage slots, the supabase configuration
flag and table, the outcomes of the external calls. -/
structure Inputs where
  t1 : Nat
  t2 : Nat
  tzOffsetMin : Int
  daily_recipe : Option Blob
  daily_recipe_date : Option String
  isSupabaseConfigured : Bool
  daily_recipes : List (String × Json)
  sharedReadFails : Bool
  genResult : Option Json
  sharedWriteFails : Bool

/-- The observable outcome of one resolution: the exposed recipe
(`setDailyRecipe`), the final states of both localStorage slots and of the
shared table, the number of shared-store reads and writes attempted, the
number of generation calls, and the final in-flight flag. -/
structure FetchResult where
  dailyRecipe : Option Json
  daily_recipe : Option Blob
  daily_recipe_date : Option String
  daily_recipes : List (String × Json)
  sharedReads : Nat
  sharedWrites : Nat
  genCalls : Nat
  isGeneratingRecipe : Bool
deriving Repr

/-- `const today = new Date().toISOString().split('T')[0]` (line 64):
computed from the first clock read. -/
def todayKey (inp : Inputs) : String := toISODateKey inp.t1

/-- `const todayString = new Date().toDateString()` (line 65): computed from
the second clock read. -/
def todayTag (inp : Inputs) : String := toDateString inp.tzOffsetMin inp.t2

/-- The local-cache stage (lines 67-81): hit only when the blob slot is
non-empty, the stored tag equals `todayString` exactly, the blob parses, and
the parsed value passes `parsed && Array.isArray(parsed.benefits)`. -/
def readLocalStage (blob : Option Blob) (storedDate : Option String)
    (todayString : String) : Option Json :=
  match blob, storedDate with
  | some b, some d =>
    if d = todayString then
      match b with
      | .parsed j => if hasArrayBenefits j then some j else none
      | .malformed => none
    else none
  | _, _ => none

def localHit (inp : Inputs) : Option Json :=
  readLocalStage inp.daily_recipe inp.daily_recipe_date (todayTag inp)

/-- The shared-cache stage verdict (lines 86-102): when the store is not
configured no read happens at all; on a configured store the read yields the
row for `today` (`.eq('date', today).single()`), with a network failure or a
missing row giving a supabase error, i.e. a miss.  The hit value is used
without any structural validation (`supabaseData.recipe_data as DailyRecipe`,
line 95). -/
def sharedHit (inp : Inputs) : Option Json :=
  if inp.isSupabaseConfigured && !inp.sharedReadFails then
    inp.daily_recipes.lookup (todayKey inp)
  else none

/-- `upsert({date, recipe_data}, {onConflict: 'date'})`: overwrite the row
with the same date if present, append otherwise. -/
def upsert (store : List (String × Json)) (date : String) (j : Json) :
    List (String × Json) :=
  if store.any (fun p => p.1 == date) then
    store.map (fun p => bif p.1 == date then (date, j) else p)
  else store ++ [(date, j)]

/-- `fetchDailyRecipe` (App.tsx lines 63-123).  Nothing inside the `try` can
throw in this model (supabase calls report failures through their result
object and `generateDailyRecipe` catches internally), so the `catch` branch
is dead; the `finally` clears the in-flight flag on every path. -/
def fetchDailyRecipe (inp : Inputs) : FetchResult :=
  match localHit inp with
  | some parsed =>
    { dailyRecipe := some parsed
      daily_recipe := inp.daily_recipe
      daily_recipe_date := inp.daily_recipe_date
      daily_recipes := inp.daily_recipes
      sharedReads := 0
      sharedWrites := 0
      genCalls := 0
      isGeneratingRecipe := false }
  | none =>
    let nReads := if inp.isSupabaseConfigured then 1 else 0
    match sharedHit inp with
    | some recipe =>
      { dailyRecipe := some recipe
        daily_recipe := some (Blob.parsed recipe)
        daily_recipe_date := some (todayTag inp)
        daily_recipes := inp.daily_recipes
        sharedReads := nReads
        sharedWrites := 0
        genCalls := 0
        isGeneratingRecipe := false }
    | none =>
      match inp.genResult with
      | some recipe =>
        if recipe.truthy then
          { dailyRecipe := some recipe
            daily_recipe := some (Blob.parsed recipe)
            daily_recipe_date := some (todayTag inp)
            daily_recipes :=
              if inp.isSupabaseConfigured && !inp.sharedWriteFails then
                upsert inp.daily_recipes (todayKey inp) recipe
              else inp.daily_recipes
            sharedReads := nReads
            sharedWrites := if inp.isSupabaseConfigured then 1 else 0
            genCalls := 1
            isGeneratingRecipe := false }
        else
          { dailyRecipe := none
            daily_recipe := inp.daily_recipe
            daily_recipe_date := inp.daily_recipe_date
            daily_recipes := inp.daily_recipes
            sharedReads := nReads
            sharedWrites := 0
            genCalls := 1
            isGeneratingRecipe := false }
      | none =>
        { dailyRecipe := none
          daily_recipe := inp.daily_recipe
          daily_recipe_date := inp.daily_recipe_date
          daily_recipes := inp.daily_recipes
          sharedReads := nReads
          sharedWrites := 0
          genCalls := 1
          isGeneratingRecipe := false }

/-! ### Helper lemmas -/

theorem isPrefixOf_append_self (l r : List Char) :
    l.isPrefixOf (l ++ r) = true := by
  induction l with
  | nil => simp [List.isPrefixOf]
  | cons c t ih => simp [List.isPrefixOf, ih]

theorem removeAllFuel_step (p : Char) (ps rest : List Char) (m : Nat) :
    removeAllFuel p ps (m + 1) ((p :: ps) ++ rest) = removeAllFuel p ps m rest := by
  rw [List.cons_append, removeAllFuel]
  rw [if_pos]
  · rw [List.drop_left]
  · rw [show p :: (ps ++ rest) = (p :: ps) ++ rest from rfl]
    exact isPrefixOf_append_self (p :: ps) rest

theorem removeAllFuel_append (p : Char) (ps l tail : List Char) (hp : p ∉ l) :
    ∀ fuel, l.length ≤ fuel →
      removeAllFuel p ps fuel (l ++ tail) = l ++ removeAllFuel p ps (fuel - l.length) tail := by
  induction l with
  | nil => intro fuel _; simp
  | cons c t ih =>
    intro fuel hf
    cases fuel with
    | zero => simp at hf
    | succ f =>
      have hpc : ((p :: ps).isPrefixOf (c :: (t ++ tail))) = false := by
        have : (p == c) = false := by
          simp only [beq_eq_false_iff_ne]
          intro h
          exact hp (h ▸ List.mem_cons_self c t)
        simp [List.isPrefixOf, this]
      rw [List.cons_append, removeAllFuel, if_neg (by simp [hpc])]
      have ht : p ∉ t := fun h => hp (List.mem_cons_of_mem c h)
      rw [ih ht f (Nat.le_of_succ_le_succ hf)]
      simp [Nat.succ_sub_succ]

theorem lookup_map_overwrite (s : List (String × Json)) (k : String) (j : Json)
    (h : s.any (fun p => p.1 == k) = true) :
    (s.map (fun p => bif p.1 == k then (k, j) else p)).lookup k = some j := by
  induction s with
  | nil => simp at h
  | cons a t ih =>
    by_cases ha : a.1 = k
    · have hab : (a.1 == k) = true := by simp [ha]
      simp [hab, List.lookup]
    · have ha' : (a.1 == k) = false := by simp [ha]
      have ht : t.any (fun p => p.1 == k) = true := by
        simpa [List.any_cons, ha'] using h
      have hka : (k == a.1) = false := by
        simp only [beq_eq_false_iff_ne]
        exact fun h' => ha h'.symm
      simp [List.map_cons, ha', List.lookup, hka]
      exact ih ht

theorem lookup_append_fresh (s : List (String × Json)) (k : String) (j : Json)
    (h : s.any (fun p => p.1 == k) = false) :
    (s ++ [(k, j)]).lookup k = some j := by
  induction s with
  | nil => simp [List.lookup]
  | cons a t ih =>
    have ha : (a.1 == k) = false := by
      by_contra hc
      simp only [Bool.not_eq_false] at hc
      simp [List.any_cons, hc] at h
    have ht : t.any (fun p => p.1 == k) = false := by
      simpa [List.any_cons, ha] using h
    have hka : (k == a.1) = false := by
      simp only [beq_eq_false_iff_ne]
      intro h'
      simp [h'] at ha
    simp only [List.cons_append, List.lookup, hka]
    exact ih ht

/-- A supabase upsert keyed on `date` always makes the row for that date
readable with exactly the written value. -/
theorem lookup_upsert (s : List (String × Json)) (k : String) (j : Json) :
    (upsert s k j).lookup k = some j := by
  unfold upsert
  by_cases h : s.any (fun p => p.1 == k) = true
  · rw [if_pos h]
    exact lookup_map_overwrite s k j h
  · rw [if_neg h]
    exact lookup_append_fresh s k j (Bool.not_eq_true _ ▸ h)

/-- A resolution that ends with the local cache holding a structurally valid
recipe tagged with its own freshness tag has resolved to exactly that
recipe: every path of `fetchDailyRecipe` that writes the cache also exposes
the written value, and a path that leaves a valid same-day cache untouched
was a local hit on it. -/
theorem populated_cache_run_returns (inp : Inputs) (j : Json)
    (h1 : (fetchDailyRecipe inp).daily_recipe = some (Blob.parsed j))
    (h2 : (fetchDailyRecipe inp).daily_recipe_date = some (todayTag inp))
    (hv : hasArrayBenefits j = true) :
    (fetchDailyRecipe inp).dailyRecipe = some j := by
  cases hl : localHit inp with
  | some p =>
    simp only [fetchDailyRecipe, hl] at h1 h2 ⊢
    have hj : localHit inp = some j := by
      simp [localHit, readLocalStage, h1, h2, hv]
    rw [hl] at hj
    simpa using hj
  | none =>
    cases hs : sharedHit inp with
    | some r =>
      simp only [fetchDailyRecipe, hl, hs] at h1 ⊢
      simp only [Option.some.injEq, Blob.parsed.injEq] at h1
      rw [h1]
    | none =>
      cases hg : inp.genResult with
      | some r =>
        by_cases ht : r.truthy = true
        · simp only [fetchDailyRecipe, hl, hs, hg, ht, if_true] at h1 ⊢
          simp only [Option.some.injEq, Blob.parsed.injEq] at h1
          rw [h1]
        · exfalso
          have ht' : r.truthy = false := by simpa using ht
          simp [fetchDailyRecipe, hl, hs, hg, ht'] at h1 h2
          have hj : localHit inp = some j := by
            simp [localHit, readLocalStage, h1, h2, hv]
          rw [hl] at hj
          exact Option.noConfusion hj
      | none =>
        exfalso
        simp only [fetchDailyRecipe, hl, hs, hg] at h1 h2
        have hj : localHit inp = some j := by
          simp [localHit, readLocalStage, h1, h2, hv]
        rw [hl] at hj
        exact Option.noConfusion hj

theorem isJsWs_backtick : isJsWs backtickChar = false := rfl

/-- `trim` leaves a payload alone when both its edges are non-whitespace. -/
theorem trimChars_eq_self (a b : Char) (mid : List Char)
    (ha : isJsWs a = false) (hb : isJsWs b = false) :
    trimChars (a :: (mid ++ [b])) = a :: (mid ++ [b]) := by
  unfold trimChars
  rw [List.dropWhile_cons, if_neg (by rw [ha]; exact Bool.false_ne_true)]
  have hrev : (a :: (mid ++ [b])).reverse = b :: (mid.reverse ++ [a]) := by
    simp
  rw [hrev, List.dropWhile_cons, if_neg (by rw [hb]; exact Bool.false_ne_true)]
  simp

/-- A payload that starts and ends with a fence is untouched by `trim`. -/
theorem trimChars_fenced (body : List Char) :
    trimChars (fenceJsonChars ++ body ++ fenceChars)
      = fenceJsonChars ++ body ++ fenceChars := by
  have h : fenceJsonChars ++ body ++ fenceChars
      = backtickChar ::
          ((backtickChar :: backtickChar :: 'j' :: 's' :: 'o' :: 'n' ::
            (body ++ [backtickChar, backtickChar])) ++ [backtickChar]) := by
    simp [fenceJsonChars, fenceChars, backtickChar, String.data]
  rw [h, trimChars_eq_self backtickChar backtickChar _ isJsWs_backtick isJsWs_backtick]

theorem hasSub_fenced (body : List Char) :
    hasSub fenceChars (fenceJsonChars ++ body ++ fenceChars) = true := by
  have h : fenceJsonChars ++ body ++ fenceChars
      = backtickChar ::
          (backtickChar :: backtickChar :: 'j' :: 's' :: 'o' :: 'n' ::
            (body ++ fenceChars)) := by
    simp [fenceJsonChars, backtickChar, String.data]
  rw [h, hasSub]
  have hpre : fenceChars.isPrefixOf
      (fenceChars ++ ('j' :: 's' :: 'o' :: 'n' :: (body ++ fenceChars))) = true :=
    isPrefixOf_append_self fenceChars _
  simp only [show fenceChars ++ ('j' :: 's' :: 'o' :: 'n' :: (body ++ fenceChars))
      = backtickChar :: backtickChar :: backtickChar :: 'j' :: 's' :: 'o' :: 'n' ::
        (body ++ fenceChars) from by simp [fenceChars, backtickChar, String.data]]
      at hpre
  rw [hpre]
  rfl

theorem removeAll_fenceJson (body : List Char) (hb : backtickChar ∉ body) :
    removeAll fenceJsonChars (fenceJsonChars ++ body ++ fenceChars)
      = body ++ fenceChars := by
  have hlen : (fenceJsonChars ++ body ++ fenceChars).length = body.length + 10 := by
    simp [fenceJsonChars, fenceChars]
  have hform : fenceJsonChars ++ body ++ fenceChars
      = (backtickChar :: [backtickChar, backtickChar, 'j', 's', 'o', 'n'])
          ++ (body ++ fenceChars) := by
    simp [fenceJsonChars, backtickChar, String.data]
  rw [show removeAll fenceJsonChars (fenceJsonChars ++ body ++ fenceChars)
      = removeAllFuel backtickChar [backtickChar, backtickChar, 'j', 's', 'o', 'n']
          (fenceJsonChars ++ body ++ fenceChars).length
          (fenceJsonChars ++ body ++ fenceChars) from rfl]
  rw [hlen]
  rw [show body.length + 10 = (body.length + 9) + 1 from rfl]
  rw [hform, removeAllFuel_step]
  rw [removeAllFuel_append backtickChar _ body fenceChars hb (body.length + 9)
    (by omega)]
  rw [show body.length + 9 - body.length = 9 from by omega]
  rw [show removeAllFuel backtickChar [backtickChar, backtickChar, 'j', 's', 'o', 'n']
      9 fenceChars = fenceChars from rfl]

theorem removeAll_fence (body : List Char) (hb : backtickChar ∉ body) :
    removeAll fenceChars (body ++ fenceChars) = body := by
  rw [show removeAll fenceChars (body ++ fenceChars)
      = removeAllFuel backtickChar [backtickChar, backtickChar]
          (body ++ fenceChars).length (body ++ fenceChars) from rfl]
  have hlen : (body ++ fenceChars).length = body.length + 3 := by
    simp [fenceChars]
  rw [hlen]
  rw [removeAllFuel_append backtickChar _ body fenceChars hb (body.length + 3)
    (by omega)]
  rw [show body.length + 3 - body.length = 3 from by omega]
  rw [show removeAllFuel backtickChar [backtickChar, backtickChar] 3 fenceChars
      = [] from rfl]
  simp

/-! ### Concrete sample data for witnesses -/

/-- The sample Recipe of the spec's Scenario A. -/
def sampleRecipe : Json :=
  Json.jobj
    [(("title"), Json.jstr ("Espeto de Frutas")),
     (("description"), Json.jstr ("Lanche saudavel")),
     (("ingredients"), Json.jarr [Json.jstr ("morango"), Json.jstr ("banana")]),
     (("instructions"),
       Json.jarr [Json.jstr ("Corte as frutas"), Json.jstr ("Monte no espeto")]),
     (("benefits"), Json.jarr [Json.jstr ("Vitamina C")]),
     (("quickTip"), Json.jstr ("Sirva gelado"))]

/-- Empty caches, unconfigured store, failing generation, clock at epoch. -/
def baseInputs : Inputs :=
  { t1 := 0
    t2 := 0
    tzOffsetMin := 0
    daily_recipe := none
    daily_recipe_date := none
    isSupabaseConfigured := false
    daily_recipes := []
    sharedReadFails := false
    genResult := none
    sharedWriteFails := false }

/-! ### The claims -/

/-- Claim C1: generation is invoked iff the local-cache stage misses (entry
absent, stale, or malformed) and the shared-cache stage misses or is
unavailable; a valid hit at either cache suppresses generation and is the
value the pipeline resolves to. -/
theorem generation_iff_both_caches_miss (inp : Inputs) :
    ((fetchDailyRecipe inp).genCalls = 1 ↔
      localHit inp = none ∧ sharedHit inp = none)
    ∧ (∀ j : Json, localHit inp = some j →
        (fetchDailyRecipe inp).genCalls = 0
        ∧ (fetchDailyRecipe inp).dailyRecipe = some j)
    ∧ (∀ j : Json, localHit inp = none → sharedHit inp = some j →
        (fetchDailyRecipe inp).genCalls = 0
        ∧ (fetchDailyRecipe inp).dailyRecipe = some j) := by
  cases hl : localHit inp with
  | some p => simp [fetchDailyRecipe, hl]
  | none =>
    cases hs : sharedHit inp with
    | some r => simp [fetchDailyRecipe, hl, hs]
    | none =>
      cases hg : inp.genResult with
      | some r =>
        by_cases ht : r.truthy = true
        · simp [fetchDailyRecipe, hl, hs, hg, ht]
        · have ht' : r.truthy = false := by simpa using ht
          simp [fetchDailyRecipe, hl, hs, hg, ht']
      | none => simp [fetchDailyRecipe, hl, hs, hg]

/-- Inputs whose local cache holds today's valid recipe. -/
def cacheHitInputs : Inputs :=
  { baseInputs with
    daily_recipe := some (Blob.parsed sampleRecipe)
    daily_recipe_date := some (toDateString 0 0) }

theorem generation_iff_both_caches_miss_witness :
    localHit cacheHitInputs = some sampleRecipe
    ∧ ((fetchDailyRecipe cacheHitInputs).genCalls = 0
      ∧ (fetchDailyRecipe cacheHitInputs).dailyRecipe = some sampleRecipe) :=
  ⟨rfl, (generation_iff_both_caches_miss cacheHitInputs).2.1 sampleRecipe rfl⟩

/-- Claim C2 counterexample: the generation stage parses its payload without
inspecting `benefits`; a service response lacking the field is returned by
the resolution as the daily recipe, not treated as failure (the claim says
the resolution would return null). -/
def noBenefitsText : List Char := ("\x7b\"title\":\"Suco de Fruta\"\x7d").data

def noBenefitsRecipe : Json :=
  Json.jobj [(("title"), Json.jstr ("Suco de Fruta"))]

def missingBenefitsInputs : Inputs :=
  { baseInputs with genResult := generateDailyRecipe (GenResponse.ok noBenefitsText) }

/-- Claim C2 is false on the code: a generation response without `benefits`
parses, is accepted, and is the resolved recipe — not null. -/
theorem missing_benefits_not_rejected_cex :
    Json.getField noBenefitsRecipe benefitsKey = none
    ∧ generateDailyRecipe (GenResponse.ok noBenefitsText) = some noBenefitsRecipe
    ∧ (fetchDailyRecipe missingBenefitsInputs).dailyRecipe = some noBenefitsRecipe
    ∧ (fetchDailyRecipe missingBenefitsInputs).dailyRecipe ≠ none := by
  refine ⟨rfl, rfl, rfl, ?_⟩
  rw [show (fetchDailyRecipe missingBenefitsInputs).dailyRecipe
      = some noBenefitsRecipe from rfl]
  simp

/-- Claim C2 (amended): only the local-cache read validates that `benefits`
is a sequence; the shared-cache read and the generation-result parse return
their value without any structural validation. -/
theorem benefits_validated_only_at_local_stage :
    (∀ (j : Json) (d : String), hasArrayBenefits j = false →
      readLocalStage (some (Blob.parsed j)) (some d) d = none)
    ∧ (∀ (inp : Inputs) (j : Json), localHit inp = none → sharedHit inp = some j →
      (fetchDailyRecipe inp).dailyRecipe = some j)
    ∧ (∀ (inp : Inputs) (j : Json), localHit inp = none → sharedHit inp = none →
      inp.genResult = some j → j.truthy = true →
      (fetchDailyRecipe inp).dailyRecipe = some j) := by
  refine ⟨?_, ?_, ?_⟩
  · intro j d hv
    simp [readLocalStage, hv]
  · intro inp j hl hs
    simp [fetchDailyRecipe, hl, hs]
  · intro inp j hl hs hg ht
    simp [fetchDailyRecipe, hl, hs, hg, ht]

theorem benefits_validated_only_at_local_stage_witness :
    hasArrayBenefits noBenefitsRecipe = false
    ∧ readLocalStage (some (Blob.parsed noBenefitsRecipe))
        (some (toDateString 0 0)) (toDateString 0 0) = none :=
  ⟨rfl,
   benefits_validated_only_at_local_stage.1 noBenefitsRecipe (toDateString 0 0) rfl⟩

/-- One resolution whose first clock read falls one millisecond before a UTC
midnight and whose second read falls on the midnight itself. -/
def straddleInputs : Inputs := { baseInputs with t1 := 86399999, t2 := 86400000 }

/-- Claim C3 is contradicted by the code: `dateKey` comes from the first
`new Date()` (App.tsx line 64) and `freshnessTag` from a second `new Date()`
(line 65).  When the two reads straddle midnight the two representations
name different calendar days within one resolution — with a single shared
timestamp (as the claim and §4.1 of the spec require) they could not. -/
theorem dateKey_freshnessTag_from_two_clock_reads :
    todayKey straddleInputs = "1970-01-01"
    ∧ todayTag straddleInputs = "Fri Jan 02 1970"
    ∧ toISODateKey straddleInputs.t2 = "1970-01-02"
    ∧ toDateString straddleInputs.tzOffsetMin straddleInputs.t1 = "Thu Jan 01 1970" :=
  ⟨rfl, rfl, rfl, rfl⟩

/-- Claim C4: a generation payload wrapped in code-fence markup is stripped
of all fence markers before structural parsing; the stage's result is
exactly the parse of the stripped body (so a parse failure after stripping
is a `fail`). -/
theorem fence_stripped_before_parse (body : List Char)
    (hb : backtickChar ∉ body) :
    generateDailyRecipe (GenResponse.ok (fenceJsonChars ++ body ++ fenceChars))
      = jsonParse (trimChars body) := by
  simp only [generateDailyRecipe]
  rw [if_neg ?hne]
  case hne =>
    rw [show fenceJsonChars ++ body ++ fenceChars
        = backtickChar :: (backtickChar :: backtickChar :: 'j' :: 's' :: 'o' :: 'n' ::
          (body ++ fenceChars)) from by simp [fenceJsonChars, backtickChar, String.data]]
    simp
  rw [trimChars_fenced]
  unfold stripFencesChars
  rw [if_pos (hasSub_fenced body)]
  rw [removeAll_fenceJson body hb, removeAll_fence body hb]

def fencedBody : List Char :=
  ("\x7b\"title\":\"Pera\",\"benefits\":[\"Fibra\"]\x7d").data

theorem fence_stripped_before_parse_witness :
    backtickChar ∉ fencedBody
    ∧ generateDailyRecipe (GenResponse.ok (fenceJsonChars ++ fencedBody ++ fenceChars))
        = jsonParse (trimChars fencedBody)
    ∧ jsonParse (trimChars fencedBody)
        = some (Json.jobj [(("title"), Json.jstr ("Pera")),
            (("benefits"), Json.jarr [Json.jstr ("Fibra")])]) :=
  ⟨by decide, fence_stripped_before_parse fencedBody (by decide), rfl⟩

/-- Claim C5: on a local miss and a shared hit, the pipeline resolves to the
stored recipe and, before returning, backfills the local cache with it
tagged with today's freshness tag; generation is not called. -/
theorem shared_hit_backfills_local_cache (inp : Inputs) (j : Json)
    (hl : localHit inp = none) (hs : sharedHit inp = some j) :
    (fetchDailyRecipe inp).dailyRecipe = some j
    ∧ (fetchDailyRecipe inp).daily_recipe = some (Blob.parsed j)
    ∧ (fetchDailyRecipe inp).daily_recipe_date = some (todayTag inp)
    ∧ (fetchDailyRecipe inp).genCalls = 0 := by
  simp [fetchDailyRecipe, hl, hs]

/-- Empty local cache, configured store holding today's recipe. -/
def sharedHitInputs : Inputs :=
  { baseInputs with
    isSupabaseConfigured := true
    daily_recipes := [((toISODateKey 0), sampleRecipe)] }

theorem shared_hit_backfills_local_cache_witness :
    localHit sharedHitInputs = none
    ∧ sharedHit sharedHitInputs = some sampleRecipe
    ∧ ((fetchDailyRecipe sharedHitInputs).dailyRecipe = some sampleRecipe
      ∧ (fetchDailyRecipe sharedHitInputs).daily_recipe
          = some (Blob.parsed sampleRecipe)
      ∧ (fetchDailyRecipe sharedHitInputs).daily_recipe_date
          = some (todayTag sharedHitInputs)
      ∧ (fetchDailyRecipe sharedHitInputs).genCalls = 0) :=
  ⟨rfl, rfl, shared_hit_backfills_local_cache sharedHitInputs sampleRecipe rfl rfl⟩

/-- Claim C6: a second resolution on the same calendar date, run on the
local cache a first resolution left populated with a valid recipe tagged
with that date, returns the identical recipe with no shared-store read, no
shared-store write, and no generation call. -/
theorem same_day_second_resolution_idempotent (inp1 inp2 : Inputs) (j : Json)
    (h1 : (fetchDailyRecipe inp1).daily_recipe = some (Blob.parsed j))
    (h2 : (fetchDailyRecipe inp1).daily_recipe_date = some (todayTag inp1))
    (hv : hasArrayBenefits j = true)
    (hc1 : inp2.daily_recipe = (fetchDailyRecipe inp1).daily_recipe)
    (hc2 : inp2.daily_recipe_date = (fetchDailyRecipe inp1).daily_recipe_date)
    (hsame : todayTag inp2 = todayTag inp1) :
    (fetchDailyRecipe inp2).dailyRecipe = some j
    ∧ (fetchDailyRecipe inp2).dailyRecipe = (fetchDailyRecipe inp1).dailyRecipe
    ∧ (fetchDailyRecipe inp2).sharedReads = 0
    ∧ (fetchDailyRecipe inp2).sharedWrites = 0
    ∧ (fetchDailyRecipe inp2).genCalls = 0 := by
  have hl2 : localHit inp2 = some j := by
    unfold localHit
    rw [hc1, h1, hc2, h2, hsame]
    simp [readLocalStage, hv]
  have hret1 : (fetchDailyRecipe inp1).dailyRecipe = some j :=
    populated_cache_run_returns inp1 j h1 h2 hv
  rw [hret1]
  simp [fetchDailyRecipe, hl2]

/-- A first run that resolves by generation and populates the local cache. -/
def firstRunInputs : Inputs := { baseInputs with genResult := some sampleRecipe }

/-- A second run, same calendar date, starting from the first run's cache. -/
def secondRunInputs : Inputs :=
  { baseInputs with
    daily_recipe := (fetchDailyRecipe firstRunInputs).daily_recipe
    daily_recipe_date := (fetchDailyRecipe firstRunInputs).daily_recipe_date }

theorem same_day_second_resolution_idempotent_witness :
    (fetchDailyRecipe firstRunInputs).daily_recipe = some (Blob.parsed sampleRecipe)
    ∧ hasArrayBenefits sampleRecipe = true
    ∧ ((fetchDailyRecipe secondRunInputs).dailyRecipe = some sampleRecipe
      ∧ (fetchDailyRecipe secondRunInputs).dailyRecipe
          = (fetchDailyRecipe firstRunInputs).dailyRecipe
      ∧ (fetchDailyRecipe secondRunInputs).sharedReads = 0
      ∧ (fetchDailyRecipe secondRunInputs).sharedWrites = 0
      ∧ (fetchDailyRecipe secondRunInputs).genCalls = 0) :=
  ⟨rfl, rfl,
   same_day_second_resolution_idempotent firstRunInputs secondRunInputs
     sampleRecipe rfl rfl rfl rfl rfl rfl⟩

/-- Claim C7: a stored freshness tag that is not exactly string-equal to
today's freshness tag makes the local-cache stage miss, regardless of the
blob's content. -/
theorem stale_freshness_tag_never_hits (inp : Inputs) (d : String)
    (hd : inp.daily_recipe_date = some d) (hne : d ≠ todayTag inp) :
    localHit inp = none := by
  cases hb : inp.daily_recipe with
  | none => simp [localHit, readLocalStage, hb]
  | some b => simp [localHit, readLocalStage, hb, hd, hne]

/-- A structurally valid entry tagged with yesterday's rendering. -/
def staleInputs : Inputs :=
  { baseInputs with
    t1 := 86400000
    t2 := 86400000
    daily_recipe := some (Blob.parsed sampleRecipe)
    daily_recipe_date := some (toDateString 0 0) }

theorem stale_freshness_tag_never_hits_witness :
    staleInputs.daily_recipe_date = some (toDateString 0 0)
    ∧ toDateString 0 0 ≠ todayTag staleInputs
    ∧ localHit staleInputs = none :=
  ⟨rfl, by decide,
   stale_freshness_tag_never_hits staleInputs (toDateString 0 0) rfl (by decide)⟩

/-- Claim C8: with no shared-store credentials every resolution performs no
shared read and no shared write (the table is untouched), and a local miss
falls directly through to generation. -/
theorem unconfigured_store_no_shared_ops (inp : Inputs)
    (hcfg : inp.isSupabaseConfigured = false) :
    (fetchDailyRecipe inp).sharedReads = 0
    ∧ (fetchDailyRecipe inp).sharedWrites = 0
    ∧ (fetchDailyRecipe inp).daily_recipes = inp.daily_recipes
    ∧ (localHit inp = none → (fetchDailyRecipe inp).genCalls = 1) := by
  have hs : sharedHit inp = none := by simp [sharedHit, hcfg]
  cases hl : localHit inp with
  | some p => simp [fetchDailyRecipe, hl, hcfg]
  | none =>
    cases hg : inp.genResult with
    | some r =>
      by_cases ht : r.truthy = true
      · simp [fetchDailyRecipe, hl, hs, hg, ht, hcfg]
      · have ht' : r.truthy = false := by simpa using ht
        simp [fetchDailyRecipe, hl, hs, hg, ht', hcfg]
    | none => simp [fetchDailyRecipe, hl, hs, hg, hcfg]

def unconfiguredInputs : Inputs := { baseInputs with genResult := some sampleRecipe }

theorem unconfigured_store_no_shared_ops_witness :
    unconfiguredInputs.isSupabaseConfigured = false
    ∧ ((fetchDailyRecipe unconfiguredInputs).sharedReads = 0
      ∧ (fetchDailyRecipe unconfiguredInputs).sharedWrites = 0
      ∧ (fetchDailyRecipe unconfiguredInputs).daily_recipes
          = unconfiguredInputs.daily_recipes
      ∧ (localHit unconfiguredInputs = none →
          (fetchDailyRecipe unconfiguredInputs).genCalls = 1)) :=
  ⟨rfl, unconfigured_store_no_shared_ops unconfiguredInputs rfl⟩

/-- Claim C9: two resolutions that both generated (their snapshots of the
shared store missed) each expose their own recipe — no publish error reaches
either caller — and the store after both upserts, in either interleaving
order, holds exactly the later writer's recipe for the date key, which is
one of the two published values. -/
theorem concurrent_publish_benign (inp1 inp2 : Inputs) (j1 j2 : Json)
    (store0 : List (String × Json)) (k : String) (first : Bool)
    (h1l : localHit inp1 = none) (h1s : sharedHit inp1 = none)
    (h1g : inp1.genResult = some j1) (h1t : j1.truthy = true)
    (h2l : localHit inp2 = none) (h2s : sharedHit inp2 = none)
    (h2g : inp2.genResult = some j2) (h2t : j2.truthy = true) :
    (fetchDailyRecipe inp1).dailyRecipe = some j1
    ∧ (fetchDailyRecipe inp2).dailyRecipe = some j2
    ∧ (upsert (upsert store0 k (bif first then j1 else j2)) k
        (bif first then j2 else j1)).lookup k = some (bif first then j2 else j1)
    ∧ ((bif first then j2 else j1) = j1 ∨ (bif first then j2 else j1) = j2) := by
  refine ⟨?_, ?_, lookup_upsert _ _ _, ?_⟩
  · simp [fetchDailyRecipe, h1l, h1s, h1g, h1t]
  · simp [fetchDailyRecipe, h2l, h2s, h2g, h2t]
  · cases first
    · exact Or.inl rfl
    · exact Or.inr rfl

def raceInputs1 : Inputs :=
  { baseInputs with isSupabaseConfigured := true, genResult := some sampleRecipe }

def raceRecipe2 : Json :=
  Json.jobj [(("title"), Json.jstr ("Salada de Frutas")),
             (("benefits"), Json.jarr [])]

def raceInputs2 : Inputs :=
  { baseInputs with isSupabaseConfigured := true, genResult := some raceRecipe2 }

theorem concurrent_publish_benign_witness :
    localHit raceInputs1 = none
    ∧ sharedHit raceInputs1 = none
    ∧ ((fetchDailyRecipe raceInputs1).dailyRecipe = some sampleRecipe
      ∧ (fetchDailyRecipe raceInputs2).dailyRecipe = some raceRecipe2
      ∧ (upsert (upsert [] (toISODateKey 0) (bif true then sampleRecipe else raceRecipe2))
          (toISODateKey 0) (bif true then raceRecipe2 else sampleRecipe)).lookup
          (toISODateKey 0) = some (bif true then raceRecipe2 else sampleRecipe)
      ∧ ((bif true then raceRecipe2 else sampleRecipe) = sampleRecipe
        ∨ (bif true then raceRecipe2 else sampleRecipe) = raceRecipe2)) :=
  ⟨rfl, rfl,
   concurrent_publish_benign raceInputs1 raceInputs2 sampleRecipe raceRecipe2
     [] (toISODateKey 0) true rfl rfl rfl rfl rfl rfl rfl rfl⟩

/-- Claim C10: when both cache stages miss and generation returns null, the
resolution leaves both local-storage slots exactly as they were, exposes a
null recipe, attempts no shared write, and clears the in-flight flag; and,
in general, a resolution mutates a local-storage slot only on a shared-cache
hit or a truthy generation result. -/
theorem failed_generation_mutates_nothing (inp : Inputs) :
    (localHit inp = none → sharedHit inp = none → inp.genResult = none →
      (fetchDailyRecipe inp).daily_recipe = inp.daily_recipe
      ∧ (fetchDailyRecipe inp).daily_recipe_date = inp.daily_recipe_date
      ∧ (fetchDailyRecipe inp).dailyRecipe = none
      ∧ (fetchDailyRecipe inp).sharedWrites = 0
      ∧ (fetchDailyRecipe inp).isGeneratingRecipe = false)
    ∧ ((fetchDailyRecipe inp).daily_recipe ≠ inp.daily_recipe
        ∨ (fetchDailyRecipe inp).daily_recipe_date ≠ inp.daily_recipe_date →
      (∃ j, sharedHit inp = some j)
      ∨ (∃ j, inp.genResult = some j ∧ j.truthy = true)) := by
  constructor
  · intro hl hs hg
    simp [fetchDailyRecipe, hl, hs, hg]
  · intro hmut
    cases hl : localHit inp with
    | some p => simp [fetchDailyRecipe, hl] at hmut
    | none =>
      cases hs : sharedHit inp with
      | some r => exact Or.inl ⟨r, rfl⟩
      | none =>
        cases hg : inp.genResult with
        | some r =>
          by_cases ht : r.truthy = true
          · exact Or.inr ⟨r, rfl, ht⟩
          · have ht' : r.truthy = false := by simpa using ht
            simp [fetchDailyRecipe, hl, hs, hg, ht'] at hmut
        | none => simp [fetchDailyRecipe, hl, hs, hg] at hmut

theorem failed_generation_mutates_nothing_witness :
    localHit baseInputs = none
    ∧ sharedHit baseInputs = none
    ∧ baseInputs.genResult = none
    ∧ ((fetchDailyRecipe baseInputs).daily_recipe = baseInputs.daily_recipe
      ∧ (fetchDailyRecipe baseInputs).daily_recipe_date
          = baseInputs.daily_recipe_date
      ∧ (fetchDailyRecipe baseInputs).dailyRecipe = none
      ∧ (fetchDailyRecipe baseInputs).sharedWrites = 0
      ∧ (fetchDailyRecipe baseInputs).isGeneratingRecipe = false) :=
  ⟨rfl, rfl, rfl, (failed_generation_mutates_nothing baseInputs).1 rfl rfl rfl⟩

end Lancheirinha
